import Mathlib

/-
  Verification of the uptime-chopper monitoring engine.

  Shallow embedding of the Go sources:
    - internal/model/model.go       (data model)
    - internal/docker/docker.go     (monitor engine: checkOnce, checkHTTP,
                                     tryRemediate, resetAttempts, appendHistory,
                                     emitNotification, emitWebhookBestEffort,
                                     limitedWriter; notify payload builders)
    - internal/store/store.go       (JSONStore: UpsertMonitor, GetState,
                                     AddMonitorHistory)
    - internal/notify/notify.go     (Dispatcher, SendWebhook)

  Conventions: Go `string`-typed enums stay strings; wall-clock instants and
  Go `int` become `Int` (instants compare and add seconds, which is all the
  engine uses); Go maps become assoc functions `String → Option α`; the Go
  zero `time.Time` (`IsZero`) becomes `Option.none`.
-/

namespace UptimeChopper

-- model.go: MonitorStatus constants
def StatusUnknown : String := "unknown"

def StatusUp : String := "up"

def StatusDown : String := "down"

def StatusPaused : String := "paused"

-- model.go: MonitorType constants
def MonitorTypeHTTP : String := "http"

def MonitorTypeContainer : String := "container"

-- model.go: RemediationAction constants
def RemediationNone : String := "none"

def RemediationStart : String := "start"

def RemediationRestart : String := "restart"

-- model.go: MonitorHistoryEntry
structure MonitorHistoryEntry where
  status : String
  checkedAt : Int
  latencyMs : Int
  message : String
  deriving DecidableEq, Repr

-- model.go: CheckResult
structure CheckResult where
  monitorId : String
  status : String
  checkedAt : Int
  latencyMs : Int
  message : String
  deriving DecidableEq, Repr

-- model.go: HTTPMonitor
structure HTTPMonitor where
  url : String
  deriving DecidableEq, Repr

-- model.go: RemediationPolicy
structure RemediationPolicy where
  action : String
  maxAttempts : Int
  cooldownSeconds : Int
  deriving DecidableEq, Repr

-- model.go: RestartPolicy
structure RestartPolicy where
  name : String
  maximumRetryCount : Int
  deriving DecidableEq, Repr

-- model.go: ContainerMonitor
structure ContainerMonitor where
  containerId : String
  restartPolicy : Option RestartPolicy
  remediation : RemediationPolicy
  deriving DecidableEq, Repr

-- model.go: DockerLogOptions
structure DockerLogOptions where
  includeLogs : Bool
  tail : Int
  deriving DecidableEq, Repr

-- model.go: Monitor
structure Monitor where
  id : String
  name : String
  type : String
  isPaused : Bool
  intervalSeconds : Int
  timeoutSeconds : Int
  notifyWebhookIds : List String
  createdAt : Int
  updatedAt : Int
  http : Option HTTPMonitor
  container : Option ContainerMonitor
  logs : DockerLogOptions
  deriving DecidableEq, Repr

-- model.go: Notification record (store-configured channel)
structure NotificationRecord where
  id : String
  name : String
  type : String
  url : String
  createdAt : Int
  updatedAt : Int
  deriving DecidableEq, Repr

-- config.go: NotificationWebhook (legacy config-declared channel)
structure NotificationWebhook where
  name : String
  url : String
  type : String
  deriving DecidableEq, Repr

-- docker.go maxInt
def maxInt (a b : Int) : Int :=
  if a > b then a else b

-- docker.go minInt
def minInt (a b : Int) : Int :=
  if a < b then a else b

/-
  History (claim C3).
  docker.go 661-673 (Engine.appendHistory) and store.go 171-184
  (JSONStore.AddMonitorHistory): prepend the entry, keep the first 50.
-/

-- docker.go: Engine.appendHistory body, acting on one monitor's list
def appendHistory (hist : List MonitorHistoryEntry) (entry : MonitorHistoryEntry) :
    List MonitorHistoryEntry :=
  let h := entry :: hist
  if h.length > 50 then h.take 50 else h

-- store.go: JSONStore.AddMonitorHistory, acting on the history map
def AddMonitorHistory (history : String → List MonitorHistoryEntry) (id : String)
    (entry : MonitorHistoryEntry) : String → List MonitorHistoryEntry :=
  fun k =>
    if k = id then
      let h := entry :: history id
      if h.length > 50 then h.take 50 else h
    else history k

/-
  HTTP probe (claim C4).
  docker.go 423-444 (checkHTTP).  The network interaction is abstracted as an
  `HTTPOutcome`: request construction failure, transport failure with the
  elapsed wall time, or a received response (status code, reason phrase,
  elapsed wall time).  `resp.Status` is the HTTP reason phrase line.
-/

inductive HTTPOutcome where
  | buildError (errText : String)
  | transportError (errText : String) (elapsedMs : Int)
  | response (statusCode : Int) (reasonPhrase : String) (elapsedMs : Int)
  deriving DecidableEq, Repr

-- docker.go: checkHTTP
def checkHTTP (now : Int) (m : Monitor) (o : HTTPOutcome) : CheckResult :=
  match m.http with
  | none =>
      { monitorId := m.id, status := StatusDown, checkedAt := now,
        latencyMs := 0, message := "missing url" }
  | some h =>
      if h.url = "" then
        { monitorId := m.id, status := StatusDown, checkedAt := now,
          latencyMs := 0, message := "missing url" }
      else
        match o with
        | .buildError errText =>
            { monitorId := m.id, status := StatusDown, checkedAt := now,
              latencyMs := 0, message := errText }
        | .transportError errText elapsed =>
            { monitorId := m.id, status := StatusDown, checkedAt := now,
              latencyMs := elapsed, message := errText }
        | .response code reason elapsed =>
            if 200 ≤ code ∧ code < 400 then
              { monitorId := m.id, status := StatusUp, checkedAt := now,
                latencyMs := elapsed, message := reason }
            else
              { monitorId := m.id, status := StatusDown, checkedAt := now,
                latencyMs := elapsed, message := reason }

-- a concrete HTTP monitor used to instantiate theorems
def monHTTPEx : Monitor :=
  { id := "m1", name := "web", type := MonitorTypeHTTP, isPaused := false,
    intervalSeconds := 30, timeoutSeconds := 5, notifyWebhookIds := [],
    createdAt := 0, updatedAt := 0, http := some { url := "http://x" },
    container := none, logs := { includeLogs := false, tail := 0 } }

/-
  Bounded log capture (claim C6).
  docker.go 723-757 (limitedWriter).  `stdcopy.StdCopy` demultiplexes the
  container log stream by issuing a sequence of `Write` calls against the same
  limitedWriter; the demuxed content is the concatenation of those chunks.
-/

structure LimitedWriter where
  max : Int
  buf : List Nat
  truncated : Bool
  deriving DecidableEq, Repr

-- docker.go: newLimitedWriter
def newLimitedWriter (maxBytes : Int) : LimitedWriter :=
  { max := if maxBytes ≤ 0 then 64 * 1024 else maxBytes, buf := [], truncated := false }

-- docker.go: limitedWriter.Write, with `remain := w.max - len(w.buf)`
-- substituted inline (the returned byte count is always len(p))
def lwWrite (w : LimitedWriter) (p : List Nat) : LimitedWriter :=
  if w.max - (w.buf.length : Int) ≤ 0 then { w with truncated := true }
  else if (p.length : Int) ≤ w.max - (w.buf.length : Int) then
    { w with buf := w.buf ++ p }
  else
    { w with buf := w.buf ++ p.take (w.max - (w.buf.length : Int)).toNat,
             truncated := true }

def lwRun (w : LimitedWriter) (chunks : List (List Nat)) : LimitedWriter :=
  chunks.foldl lwWrite w

def lwInv (maxB : Int) (total : List Nat) (w : LimitedWriter) : Prop :=
  w.max = maxB ∧ w.buf = total.take maxB.toNat
  ∧ (w.truncated = false → (total.length : Int) ≤ maxB)

/-
  Store (claim C7).
  store.go 13-16 (State), 64-68 (GetState), 70-98 (UpsertMonitor).
  Persistence to disk (persistLocked) is filesystem I/O outside the engine
  core and is modeled as always succeeding.
-/

structure StoreState where
  monitors : List Monitor
  notifications : List NotificationRecord
  deriving DecidableEq, Repr

-- store.go: JSONStore.GetState (returns the state snapshot)
def GetState (s : StoreState) : StoreState := s

-- store.go: the monitor-slice scan inside UpsertMonitor: replace the first
-- monitor with a matching id by m (createdAt kept, updatedAt refreshed) and
-- report the stored value; otherwise leave the slice unchanged
def upsertMonList (now : Int) (m : Monitor) :
    List Monitor → List Monitor × Option Monitor
  | [] => ([], none)
  | x :: xs =>
      if x.id = m.id then
        ({ m with createdAt := x.createdAt, updatedAt := now } :: xs,
          some { m with createdAt := x.createdAt, updatedAt := now })
      else
        let r := upsertMonList now m xs
        (x :: r.1, r.2)

-- store.go: JSONStore.UpsertMonitor (append with fresh timestamps when the id
-- is not present)
def UpsertMonitor (now : Int) (s : StoreState) (m : Monitor) :
    StoreState × Monitor :=
  match upsertMonList now m s.monitors with
  | (ms, some mFound) => ({ s with monitors := ms }, mFound)
  | (_, none) =>
      ({ s with monitors :=
          s.monitors ++ [{ m with createdAt := now, updatedAt := now }] },
        { m with createdAt := now, updatedAt := now })

/-
  Remediation (claim C1).
  docker.go 478-535 (Engine.tryRemediate) and 649-653 (Engine.resetAttempts),
  for a single monitor: the per-id maps reduce to the attempts counter (map
  absent = 0) and the remediateAt instant (the Go zero time = none).  The
  docker Start/Restart call is abstracted; the Bool records whether a
  remediation action was issued.
-/

structure RemState where
  attempts : Int
  remediateAt : Option Int
  deriving DecidableEq, Repr

-- docker.go: Engine.tryRemediate with the monitor's remediation policy p
def tryRemediate (p : RemediationPolicy) (now : Int) (s : RemState) :
    RemState × Bool :=
  if p.action = "" ∨ p.action = RemediationNone then (s, false)
  else if p.maxAttempts ≤ 0 then (s, false)
  else if (match s.remediateAt with
           | some next => decide (now < next)
           | none => false) then (s, false)
  else if p.maxAttempts ≤ s.attempts then (s, false)
  else if p.action = RemediationStart ∨ p.action = RemediationRestart then
    ({ attempts := s.attempts + 1,
       remediateAt := some (now + maxInt 5 p.cooldownSeconds) }, true)
  else
    ({ attempts := s.attempts + 1,
       remediateAt := some (now + maxInt 5 p.cooldownSeconds) }, false)

-- docker.go: Engine.resetAttempts (delete from the attempts map = counter 0;
-- remediateAt is untouched)
def resetAttempts (s : RemState) : RemState :=
  { s with attempts := 0 }

-- the two engine calls that touch remediation state for a monitor:
-- checkOnce resets attempts on the first up after a non-up, and a failing
-- container probe calls tryRemediate
inductive RemEvent where
  | reset
  | check
  deriving DecidableEq, Repr

def remStep (p : RemediationPolicy) (s : RemState) (e : Int × RemEvent) :
    RemState × Option Int :=
  match e.2 with
  | .reset => (resetAttempts s, none)
  | .check =>
      let r := tryRemediate p e.1 s
      (r.1, if r.2 then some e.1 else none)

def remRun (p : RemediationPolicy) (s : RemState) :
    List (Int × RemEvent) → RemState × List Int
  | [] => (s, [])
  | e :: tr =>
      let r := remStep p s e
      let rest := remRun p r.1 tr
      (rest.1, r.2.toList ++ rest.2)

-- the remediation-cooldown scenario of the specification: restart policy,
-- maxAttempts 2, cooldown 10, failing probes at t = 0, 5, 10, 20
def remPolicyEx : RemediationPolicy :=
  { action := RemediationRestart, maxAttempts := 2, cooldownSeconds := 10 }

/-
  Engine per-monitor transition (claims C2, C10).
  docker.go 383-421 (Engine.checkOnce), 446-462 (checkContainer result),
  569-592 (emitNotification), 633-647 (getLastStatus / setLastStatus).
  Probe I/O is abstracted as a ProbeOutcome: the HTTPOutcome for HTTP probes,
  the ContainerState answer, and the attachment built by tryAttachLogs (whose
  byte-capping core is limitedWriter, modeled above for C6).  checkContainer's
  side effects (applyRestartPolicy, tryRemediate) act on the remediation state
  modeled in the C1 section and do not alter the CheckResult.
-/

-- notify.go: DockerLogsAttachment
structure DockerLogsAttachment where
  containerId : String
  content : String
  truncated : Bool
  deriving DecidableEq, Repr

-- a value of Go type `any` as stored in Payload.Data
inductive DataVal where
  | s (v : String)
  | i (v : Int)
  deriving DecidableEq, Repr

-- notify.go: Payload (Data is a map with the keys listed at construction)
structure Payload where
  type : String
  monitorId : String
  atTime : Int
  data : List (String × DataVal)
  logs : Option DockerLogsAttachment
  deriving DecidableEq, Repr

-- a successful Go type assertion v, ok := data[k].(string)
def dataGetStr (d : List (String × DataVal)) (k : String) : Option String :=
  match d.lookup k with
  | some (.s v) => some v
  | _ => none

-- a successful Go type assertion v, ok := data[k].(int)
def dataGetInt (d : List (String × DataVal)) (k : String) : Option Int :=
  match d.lookup k with
  | some (.i v) => some v
  | _ => none

-- Go fmt %v rendering of a Data value
def dataValText : DataVal → String
  | .s v => v
  | .i v => toString v

inductive ContainerOutcome where
  | stateError (errText : String)
  | state (st : String)
  deriving DecidableEq, Repr

structure ProbeOutcome where
  http : HTTPOutcome
  container : ContainerOutcome
  attach : Option DockerLogsAttachment
  deriving DecidableEq, Repr

-- docker.go: checkContainer's returned CheckResult and log attachment
def checkContainerResult (now : Int) (m : Monitor) (o : ContainerOutcome)
    (attach : Option DockerLogsAttachment) :
    CheckResult × Option DockerLogsAttachment :=
  match m.container with
  | none =>
      ({ monitorId := m.id, status := StatusDown, checkedAt := now,
         latencyMs := 0, message := "missing container id" }, none)
  | some c =>
      if c.containerId = "" then
        ({ monitorId := m.id, status := StatusDown, checkedAt := now,
           latencyMs := 0, message := "missing container id" }, none)
      else
        match o with
        | .stateError errText =>
            ({ monitorId := m.id, status := StatusDown, checkedAt := now,
               latencyMs := 0, message := errText }, attach)
        | .state st =>
            if st = "running" then
              ({ monitorId := m.id, status := StatusUp, checkedAt := now,
                 latencyMs := 0, message := st }, none)
            else
              ({ monitorId := m.id, status := StatusDown, checkedAt := now,
                 latencyMs := 0, message := st }, attach)

-- docker.go: the switch on m.Type inside checkOnce (lines 387-396)
def dispatchCheck (now : Int) (m : Monitor) (o : ProbeOutcome) :
    CheckResult × Option DockerLogsAttachment :=
  if m.type = MonitorTypeHTTP then (checkHTTP now m o.http, none)
  else if m.type = MonitorTypeContainer then
    checkContainerResult now m o.container o.attach
  else
    ({ monitorId := m.id, status := StatusUnknown, checkedAt := now,
       latencyMs := 0, message := "unknown monitor type" }, none)

-- docker.go: Engine's per-monitor maps (lastStatus, lastCheck, history,
-- attempts; map lookup misses are none / the empty list)
structure EngineState where
  lastStatus : String → Option String
  lastCheck : String → Option Int
  history : String → List MonitorHistoryEntry
  attempts : String → Option Int

-- docker.go: NewEngine's empty maps
def NewEngine : EngineState :=
  { lastStatus := fun _ => none, lastCheck := fun _ => none,
    history := fun _ => [], attempts := fun _ => none }

-- docker.go: Engine.getLastStatus (absent entry reads as unknown)
def getLastStatus (st : EngineState) (id : String) : String :=
  match st.lastStatus id with
  | some v => v
  | none => StatusUnknown

-- docker.go: Engine.setLastStatus
def setLastStatus (st : EngineState) (id : String) (s : String) (t : Int) :
    EngineState :=
  { st with
    lastStatus := fun k => if k = id then some s else st.lastStatus k,
    lastCheck := fun k => if k = id then some t else st.lastCheck k }

-- docker.go: Engine.resetAttempts on the attempts map (delete the key)
def resetAttemptsMap (st : EngineState) (id : String) : EngineState :=
  { st with attempts := fun k => if k = id then none else st.attempts k }

-- docker.go: Engine.appendHistory on the history map
def engineAppendHistory (st : EngineState) (id : String)
    (entry : MonitorHistoryEntry) : EngineState :=
  { st with history := fun k =>
      if k = id then appendHistory (st.history k) entry else st.history k }

-- docker.go: the target computed by emitNotification (lines 570-575)
def monitorTarget (m : Monitor) : String :=
  if m.type = MonitorTypeHTTP then
    match m.http with
    | some h => h.url
    | none => ""
  else if m.type = MonitorTypeContainer then
    match m.container with
    | some c => c.containerId
    | none => ""
  else ""

-- docker.go: Engine.emitNotification's payload (the delivery fan-out is
-- emitWebhookBestEffort, modeled below for C5)
def emitNotification (m : Monitor) (res : CheckResult)
    (logs : Option DockerLogsAttachment) (prev : String) : Payload :=
  { type := "status_changed", monitorId := m.id, atTime := res.checkedAt,
    data := [("monitorName", .s m.name), ("target", .s (monitorTarget m)),
             ("previous", .s prev), ("current", .s res.status),
             ("message", .s res.message), ("latencyMs", .i res.latencyMs)],
    logs := logs }

-- docker.go: Engine.checkOnce — the transition applied after a probe
-- completes, returning the updated engine state and the status_changed
-- emission (none when the status did not change)
def checkOnce (now : Int) (m : Monitor) (o : ProbeOutcome)
    (st : EngineState) : EngineState × Option Payload :=
  let res := (dispatchCheck now m o).1
  let prev := getLastStatus st m.id
  let st1 := setLastStatus st m.id res.status now
  let st2 := engineAppendHistory st1 m.id
    { status := res.status, checkedAt := res.checkedAt,
      latencyMs := res.latencyMs, message := res.message }
  let st3 := if res.status = StatusUp ∧ prev ≠ StatusUp then
      resetAttemptsMap st2 m.id
    else st2
  if prev ≠ res.status then
    (st3, some (emitNotification m res (dispatchCheck now m o).2 prev))
  else (st3, none)

/-
  Notifier target resolution (claim C5).
  docker.go 594-631 (Engine.emitWebhookBestEffort), notify.go 34-46
  (NewDispatcher's name-keyed legacy map, blank names/urls skipped) and 52-58
  (Dispatcher.SendWebhook, which silently drops absent names).  notify.Send
  performs the HTTP POST; a delivery is recorded here as the resolved webhook
  paired with the payload, and the engine discards all Send errors.
-/

-- notify.go: NewDispatcher's webhook map
def dispatcherMap (webhooks : List NotificationWebhook) :
    String → Option NotificationWebhook :=
  webhooks.foldl
    (fun acc w =>
      if w.name = "" ∨ w.url = "" then acc
      else fun k => if k = w.name then some w else acc k)
    (fun _ => none)

-- notify.go: Dispatcher.SendWebhook
def SendWebhook (legacy : String → Option NotificationWebhook)
    (webhookName : String) (payload : Payload) :
    List (NotificationWebhook × Payload) :=
  match legacy webhookName with
  | some w => [(w, payload)]
  | none => []

-- docker.go: Engine.emitWebhookBestEffort — the deliveries attempted for the
-- monitor's notifyWebhookIds list
def emitWebhookBestEffort (notifs : List NotificationRecord)
    (legacy : String → Option NotificationWebhook) (payload : Payload) :
    List String → List (NotificationWebhook × Payload)
  | [] => []
  | id :: rest =>
      match notifs.find? (fun n => n.id == id) with
      | some n =>
          ({ name := n.name, url := n.url, type := n.type }, payload)
            :: emitWebhookBestEffort notifs legacy payload rest
      | none =>
          match notifs.find? (fun n => n.name == id) with
          | some n =>
              ({ name := n.name, url := n.url, type := n.type }, payload)
                :: emitWebhookBestEffort notifs legacy payload rest
          | none =>
              SendWebhook legacy id payload
                ++ emitWebhookBestEffort notifs legacy payload rest

-- the resolution-fallback scenario of the specification: the store holds no
-- record with id "ops" but one with name "ops"
def notifOpsEx : NotificationRecord :=
  { id := "id-1", name := "ops", type := "discord", url := "http://hook",
    createdAt := 0, updatedAt := 0 }

def payloadEx : Payload :=
  { type := "status_changed", monitorId := "m1", atTime := 0,
    data := [("current", .s "down")], logs := none }

/-
  Channel formatting (claims C8, C9).
  The notify payload builders used by the engine, embedded from docker.go
  877-1009: translateEventType, formatMarkdown, buildDingTalkPayload,
  buildWeChatPayload, buildDiscordPayload.  JSON wire shapes become Lean
  structures with the same field names.  Calendar renderings of the abstract
  instant (time.Time.Format) are opaque to the properties proved here.
-/

-- Go p.At.Format("2006-01-02 15:04:05")
def formatDateTime (t : Int) : String :=
  toString t

-- Go p.At.Format(time.RFC3339)
def formatRFC3339 (t : Int) : String :=
  toString t

-- docker.go: translateEventType
def translateEventType (t : String) : String :=
  if t = "status_changed" then "状态变更"
  else if t = "remediated" then "自动修复"
  else if t = "error" then "错误"
  else t

-- docker.go: formatMarkdown (the markdown body shared by the dingtalk,
-- wechat and discord builders)
def formatMarkdown (title : String) (p : Payload) : String :=
  let statusEmoji :=
    match dataGetStr p.data "current" with
    | some s => if s = "up" then "🟢" else if s = "down" then "🔴" else "ℹ️"
    | none => "ℹ️"
  let head := "# " ++ statusEmoji ++ " " ++ title ++ "\n\n"
  let nameLine :=
    match dataGetStr p.data "monitorName" with
    | some n => if n ≠ "" then "- **监控名称**: " ++ n ++ "\n" else ""
    | none => ""
  let targetLine :=
    match dataGetStr p.data "target" with
    | some t => if t ≠ "" then "- **监控目标**: " ++ t ++ "\n" else ""
    | none => ""
  let statusLine :=
    match dataGetStr p.data "current" with
    | some current =>
        let statusText :=
          if current = "up" then "🟢 正常 (Up)"
          else if current = "down" then "🔴 故障 (Down)"
          else current
        "- **当前状态**: " ++ statusText ++ "\n"
    | none => ""
  let timeLine := "- **时间**: " ++ formatDateTime p.atTime ++ "\n"
  let msgLine :=
    match dataGetStr p.data "message" with
    | some msg => if msg ≠ "" then "- **消息**: " ++ msg ++ "\n" else ""
    | none => ""
  let latLine :=
    match p.data.lookup "latencyMs" with
    | some v => "- **延迟**: " ++ dataValText v ++ " ms\n"
    | none => ""
  let actionLine :=
    match dataGetStr p.data "action" with
    | some action => "- **修复动作**: " ++ action ++ "\n"
    | none => ""
  let attemptLine :=
    match p.data.lookup "attempt" with
    | some v => "- **尝试次数**: " ++ dataValText v ++ "\n"
    | none => ""
  let logsBlock :=
    match p.logs with
    | some lg =>
        "\n> **容器日志**:\n\n" ++ "```\n"
          ++ (if lg.content.length > 1000 then
                "...(已截断)...\n" ++ lg.content.drop (lg.content.length - 1000)
              else lg.content)
          ++ "\n```\n"
    | none => ""
  head ++ nameLine ++ targetLine ++ statusLine ++ timeLine ++ msgLine
    ++ latLine ++ actionLine ++ attemptLine ++ logsBlock

structure MarkdownMsg where
  title : String
  text : String
  deriving DecidableEq, Repr

structure DingTalkPayload where
  msgtype : String
  markdown : MarkdownMsg
  deriving DecidableEq, Repr

structure WeChatMarkdown where
  content : String
  deriving DecidableEq, Repr

structure WeChatPayload where
  msgtype : String
  markdown : WeChatMarkdown
  deriving DecidableEq, Repr

structure DiscordEmbed where
  title : String
  description : String
  color : Int
  timestamp : String
  deriving DecidableEq, Repr

structure DiscordPayload where
  username : String
  embeds : List DiscordEmbed
  deriving DecidableEq, Repr

-- docker.go: buildDingTalkPayload
def buildDingTalkPayload (p : Payload) : DingTalkPayload :=
  let title := "监控报警: " ++ translateEventType p.type
  { msgtype := "markdown",
    markdown := { title := title, text := formatMarkdown title p } }

-- docker.go: buildWeChatPayload
def buildWeChatPayload (p : Payload) : WeChatPayload :=
  let title := "监控报警: " ++ translateEventType p.type
  { msgtype := "markdown",
    markdown := { content := formatMarkdown title p } }

-- docker.go: buildDiscordPayload
def buildDiscordPayload (p : Payload) : DiscordPayload :=
  let title := "监控报警: " ++ translateEventType p.type
  let description := formatMarkdown title p
  let color : Int :=
    match dataGetStr p.data "current" with
    | some s => if s = "down" then 0xdc3545 else 0x5cdd8b
    | none => 0x5cdd8b
  { username := "Uptime Chopper",
    embeds := [{ title := title, description := description, color := color,
                 timestamp := formatRFC3339 p.atTime }] }

-- a payload carrying a short log attachment
def lgEx : DockerLogsAttachment :=
  { containerId := "c1", content := "boot ok", truncated := false }

def payloadLogsEx : Payload :=
  { type := "status_changed", monitorId := "m1", atTime := 0,
    data := [("current", .s "down")], logs := some lgEx }

theorem appendHistory_eq_take (h : List MonitorHistoryEntry) (e : MonitorHistoryEntry) :
    appendHistory h e = (e :: h).take 50 := by
  simp only [appendHistory]
  split
  · rfl
  · rename_i hl
    exact (List.take_of_length_le (by omega)).symm

theorem appendHistory_length_le (h : List MonitorHistoryEntry)
    (e : MonitorHistoryEntry) : (appendHistory h e).length ≤ 50 := by
  rw [appendHistory_eq_take, List.length_take]
  omega

theorem foldl_appendHistory (es : List MonitorHistoryEntry)
    (acc : List MonitorHistoryEntry) (hacc : acc.length ≤ 50) :
    List.foldl appendHistory acc es = (es.reverse ++ acc).take 50 := by
  induction es generalizing acc with
  | nil =>
      simp only [List.foldl_nil, List.reverse_nil, List.nil_append]
      exact (List.take_of_length_le hacc).symm
  | cons e es ih =>
      rw [List.foldl_cons, ih _ (appendHistory_length_le acc e),
        appendHistory_eq_take]
      simp only [List.reverse_cons, List.append_assoc, List.singleton_append]
      rw [List.take_append_eq_append_take, List.take_append_eq_append_take,
        List.take_take]
      congr 2
      omega

/-- C3: per-monitor history has append-front semantics with the new entry at
index 0, is capped at 50 entries, and folding any entry sequence over the empty
history yields exactly the most recent `min 50 n` entries newest-first (so 60
appends leave the most recent 50 in reverse-chronological order); the store's
`AddMonitorHistory` applies the same bounded prepend at the given monitor id. -/
theorem history_bounded_append (h : List MonitorHistoryEntry)
    (e : MonitorHistoryEntry) (es : List MonitorHistoryEntry)
    (hm : String → List MonitorHistoryEntry) (id : String) :
    (appendHistory h e).head? = some e
    ∧ (appendHistory h e).length ≤ 50
    ∧ List.foldl appendHistory [] es = es.reverse.take 50
    ∧ (List.foldl appendHistory [] es).length = min 50 es.length
    ∧ AddMonitorHistory hm id e id = appendHistory (hm id) e := by
  refine ⟨?_, appendHistory_length_le h e, ?_, ?_, ?_⟩
  · rw [appendHistory_eq_take]
    rfl
  · simpa using foldl_appendHistory es [] (by simp)
  · rw [foldl_appendHistory es [] (by simp)]
    simp
  · simp [AddMonitorHistory, appendHistory]

/-- C4: the HTTP probe returns down with message "missing url" and latency 0
when the monitor's URL is absent or empty; on a transport error it returns down
with the error text and the elapsed latency; on a received response it returns
up exactly when 200 ≤ code < 400 (down otherwise), with the reason phrase as
the message and the elapsed latency. -/
theorem http_probe_cases (m : Monitor) (now : Int) (o : HTTPOutcome)
    (errText reason : String) (elapsed code : Int) :
    ((m.http.map HTTPMonitor.url).getD "" = "" →
      checkHTTP now m o
        = { monitorId := m.id, status := StatusDown, checkedAt := now,
            latencyMs := 0, message := "missing url" })
    ∧ ((m.http.map HTTPMonitor.url).getD "" ≠ "" →
      checkHTTP now m (.transportError errText elapsed)
        = { monitorId := m.id, status := StatusDown, checkedAt := now,
            latencyMs := elapsed, message := errText })
    ∧ ((m.http.map HTTPMonitor.url).getD "" ≠ "" →
      ((checkHTTP now m (.response code reason elapsed)).status
          = if 200 ≤ code ∧ code < 400 then StatusUp else StatusDown)
      ∧ (checkHTTP now m (.response code reason elapsed)).message = reason
      ∧ (checkHTTP now m (.response code reason elapsed)).latencyMs = elapsed) := by
  rcases hm : m.http with _ | h
  · refine ⟨fun _ => by simp [checkHTTP, hm], fun hne => ?_, fun hne => ?_⟩ <;>
      simp [hm] at hne
  · by_cases hu : h.url = ""
    · refine ⟨fun _ => by simp [checkHTTP, hm, hu], fun hne => ?_, fun hne => ?_⟩ <;>
        simp [hm, hu] at hne
    · refine ⟨fun he => ?_, fun _ => by simp [checkHTTP, hm, hu], fun _ => ?_⟩
      · simp [hm, hu] at he
      · simp only [checkHTTP, hm, if_neg hu]
        split <;> simp_all

/-- C4 witness: a concrete monitor with URL set, probed with a 200 response. -/
theorem http_probe_cases_witness :
    (checkHTTP 3 monHTTPEx (.response 200 "200 OK" 12)).status = StatusUp := by
  have h := (http_probe_cases monHTTPEx 3 (.response 200 "200 OK" 12)
    "" "200 OK" 12 200).2.2 (by simp [monHTTPEx])
  simpa using h.1

theorem lwWrite_inv (maxB : Int) (hpos : 0 < maxB) (total p : List Nat)
    (w : LimitedWriter) (hw : lwInv maxB total w) :
    lwInv maxB (total ++ p) (lwWrite w p) := by
  obtain ⟨wm, wb, wt⟩ := w
  obtain ⟨hmax, hbuf, hf⟩ := hw
  simp only at hmax hbuf hf
  subst wm
  subst wb
  have hM : (maxB.toNat : Int) = maxB := Int.toNat_of_nonneg (le_of_lt hpos)
  have hbl : (List.take maxB.toNat total).length = min maxB.toNat total.length :=
    List.length_take _ _
  simp only [lwWrite, lwInv, List.length_append]
  by_cases h1 : maxB - ((List.take maxB.toNat total).length : Int) ≤ 0
  · rw [if_pos h1]
    have htot : maxB.toNat ≤ total.length := by
      rw [hbl] at h1
      omega
    exact ⟨rfl, (List.take_append_of_le_length htot).symm, by simp⟩
  · have htlt : total.length < maxB.toNat := by
      push_neg at h1
      rw [hbl] at h1
      push_cast at h1
      omega
    have htq : List.take maxB.toNat total = total :=
      List.take_of_length_le (le_of_lt htlt)
    rw [htq] at h1 ⊢
    by_cases h2 : (p.length : Int) ≤ maxB - (total.length : Int)
    · rw [if_neg h1, if_pos h2]
      refine ⟨rfl, ?_, fun _ => ?_⟩
      · refine (List.take_of_length_le ?_).symm
        rw [List.length_append]
        omega
      · push_cast
        omega
    · rw [if_neg h1, if_neg h2]
      push_neg at h2
      refine ⟨rfl, ?_, by simp⟩
      rw [List.take_append_eq_append_take, htq]
      have he : (maxB - (total.length : Int)).toNat = maxB.toNat - total.length := by
        omega
      rw [he]

theorem lwRun_inv (maxB : Int) (hpos : 0 < maxB) (chunks : List (List Nat)) :
    ∀ total w, lwInv maxB total w →
      lwInv maxB (total ++ chunks.flatten) (lwRun w chunks) := by
  induction chunks with
  | nil =>
      intro total w hw
      simpa [lwRun] using hw
  | cons c cs ih =>
      intro total w hw
      have h2 := ih (total ++ c) (lwWrite w c)
        (lwWrite_inv maxB hpos total c w hw)
      simpa [lwRun, List.append_assoc] using h2

theorem lwInit_inv (maxB : Int) (hpos : 0 < maxB) :
    lwInv maxB [] (newLimitedWriter maxB) := by
  refine ⟨?_, by simp [newLimitedWriter], fun _ => by simp; omega⟩
  simp only [newLimitedWriter]
  rw [if_neg (by omega)]

theorem lwRun_not_truncated (maxB : Int) (chunks : List (List Nat)) :
    ∀ total w, w.max = maxB → w.buf = total → w.truncated = false →
      ((total.length : Int) + (chunks.flatten.length : Int) ≤ maxB) →
      (∀ i, i < chunks.length →
        (total.length : Int) + ((chunks.take i).flatten.length : Int) < maxB) →
      (lwRun w chunks).truncated = false
      ∧ (lwRun w chunks).buf = total ++ chunks.flatten := by
  induction chunks with
  | nil =>
      intro total w _ hbuf htr _ _
      simp [lwRun, htr, hbuf]
  | cons c cs ih =>
      intro total w hmax hbuf htr hfit hpre
      have h0 : (total.length : Int) < maxB := by
        have h := hpre 0 (by simp)
        simpa using h
      have hflat : (c.length : Int) + (cs.flatten.length : Int)
          = ((c :: cs).flatten.length : Int) := by
        simp [List.flatten_cons]
      have hfit2 : (total.length : Int) + ((c.length : Int)
          + (cs.flatten.length : Int)) ≤ maxB := by
        rw [hflat]
        exact hfit
      have hc : (c.length : Int) ≤ maxB - (total.length : Int) := by
        have hnn : (0 : Int) ≤ (cs.flatten.length : Int) := Int.ofNat_nonneg _
        omega
      have hwb : lwWrite w c = { w with buf := total ++ c } := by
        unfold lwWrite
        rw [hmax, hbuf]
        rw [if_neg (by omega), if_pos (by omega)]
      have hrec := ih (total ++ c) (lwWrite w c)
        (by rw [hwb]; exact hmax) (by rw [hwb]) (by rw [hwb]; exact htr)
        (by rw [List.length_append]
            push_cast
            omega)
        (by intro i hi
            have h := hpre (i + 1) (by simpa using Nat.succ_lt_succ hi)
            rw [List.take_succ_cons, List.flatten_cons,
              List.length_append] at h
            rw [List.length_append]
            push_cast at h ⊢
            omega)
      refine ⟨?_, ?_⟩
      · simpa only [lwRun, List.foldl_cons] using hrec.1
      · have hb2 := hrec.2
        simp only [lwRun, List.foldl_cons] at hb2 ⊢
        rw [hb2, List.flatten_cons, List.append_assoc]

/-- C6 (amended): when the total demuxed content exceeds maxLogBytes, the
captured content is exactly maxLogBytes bytes and truncated = true — with no
side condition; when the total content fits within the cap, the captured
content is complete — with no side condition — and truncated = false provided
no demuxed write call arrives once the buffer is already full, that is, every
proper prefix of the write sequence totals strictly under the cap.  (The sole
fitting case that sets truncated, excluded by that proviso, is the
counterexample: a zero-length write at an exactly-full buffer.) -/
theorem limitedWriter_cap (maxB : Int) (chunks : List (List Nat))
    (hpos : 0 < maxB) :
    (maxB < (chunks.flatten.length : Int) →
      ((lwRun (newLimitedWriter maxB) chunks).buf.length : Int) = maxB
      ∧ (lwRun (newLimitedWriter maxB) chunks).truncated = true)
    ∧ ((chunks.flatten.length : Int) ≤ maxB →
      (lwRun (newLimitedWriter maxB) chunks).buf = chunks.flatten)
    ∧ ((chunks.flatten.length : Int) ≤ maxB →
      (∀ i, i < chunks.length →
        ((chunks.take i).flatten.length : Int) < maxB) →
      (lwRun (newLimitedWriter maxB) chunks).truncated = false) := by
  have hinv := lwRun_inv maxB hpos chunks [] _ (lwInit_inv maxB hpos)
  rw [List.nil_append] at hinv
  obtain ⟨hmax, hbuf, hf⟩ := hinv
  refine ⟨?_, ?_, ?_⟩
  · intro hgt
    constructor
    · rw [hbuf, List.length_take]
      have : (maxB.toNat : Int) = maxB := Int.toNat_of_nonneg (le_of_lt hpos)
      push_cast
      omega
    · cases htr : (lwRun (newLimitedWriter maxB) chunks).truncated with
      | false => exact absurd (hf htr) (by omega)
      | true => rfl
  · intro hle
    rw [hbuf]
    apply List.take_of_length_le
    omega
  · intro hle hpre
    have hrun := lwRun_not_truncated maxB chunks [] (newLimitedWriter maxB)
      (by simp only [newLimitedWriter]
          rw [if_neg (by omega)])
      rfl rfl (by simpa using hle)
      (by intro i hi
          simpa using hpre i hi)
    exact hrun.1

/-- C6 witness: cap 2 with three one-byte chunks captures exactly 2 bytes and
truncates; cap 2 with a lone one-byte chunk is captured whole without
truncation. -/
theorem limitedWriter_cap_witness :
    (((lwRun (newLimitedWriter 2) [[1], [2], [3]]).buf.length : Int) = 2
      ∧ (lwRun (newLimitedWriter 2) [[1], [2], [3]]).truncated = true)
    ∧ (lwRun (newLimitedWriter 2) [[7]]).buf = [7]
    ∧ (lwRun (newLimitedWriter 2) [[7]]).truncated = false :=
  ⟨(limitedWriter_cap 2 [[1], [2], [3]] (by decide)).1 (by decide),
   (limitedWriter_cap 2 [[7]] (by decide)).2.1 (by decide),
   (limitedWriter_cap 2 [[7]] (by decide)).2.2 (by decide) (by decide)⟩

/-- C6 counterexample: with cap 1, the demuxed content [55] (one byte) fits the
cap, yet a subsequent zero-length demuxed write leaves the capture complete but
flags truncated = true, contradicting the claim that content fitting within the
cap always yields truncated = false. -/
theorem limitedWriter_cap_cex :
    (([[55], []] : List (List Nat)).flatten.length : Int) ≤ 1
    ∧ (lwRun (newLimitedWriter 1) [[55], []]).buf = [55]
    ∧ (lwRun (newLimitedWriter 1) [[55], []]).truncated = true := by
  decide

theorem upsertMonList_spec (now : Int) (m : Monitor) (ms : List Monitor) :
    (upsertMonList now m ms).2
        = (ms.find? (fun x => x.id == m.id)).map
            (fun old => { m with createdAt := old.createdAt, updatedAt := now })
    ∧ (∀ m', (upsertMonList now m ms).2 = some m' →
        (upsertMonList now m ms).1.find? (fun x => x.id == m.id) = some m') := by
  induction ms with
  | nil => simp [upsertMonList]
  | cons x xs ih =>
      by_cases hx : x.id = m.id
      · refine ⟨?_, ?_⟩
        · simp [upsertMonList, hx, List.find?]
        · intro m' hm'
          simp only [upsertMonList, if_pos hx] at hm' ⊢
          simp only [Option.some.injEq] at hm'
          subst hm'
          simp [List.find?]
      · obtain ⟨ih1, ih2⟩ := ih
        have hb : (x.id == m.id) = false := by
          simp [hx]
        refine ⟨?_, ?_⟩
        · simpa [upsertMonList, hx, List.find?, hb] using ih1
        · intro m' hm'
          simp only [upsertMonList, if_neg hx] at hm' ⊢
          simp only [List.find?, hb]
          simpa using ih2 m' hm'

/-- C7 (amended): after `UpsertMonitor`, reading the monitor with that id from
`GetState` yields the upserted value, which equals m except that updatedAt is
refreshed to the upsert time and createdAt is replaced — preserved from the
already-stored monitor when the id exists, otherwise set to the upsert time. -/
theorem upsert_then_get (s : StoreState) (m : Monitor) (now : Int)
    (hid : m.id ≠ "") :
    (GetState (UpsertMonitor now s m).1).monitors.find? (fun x => x.id == m.id)
      = some (UpsertMonitor now s m).2
    ∧ (UpsertMonitor now s m).2
      = { m with
          updatedAt := now,
          createdAt := ((s.monitors.find? (fun x => x.id == m.id)).map
            Monitor.createdAt).getD now } := by
  obtain ⟨h1, h3⟩ := upsertMonList_spec now m s.monitors
  rcases hui : upsertMonList now m s.monitors with ⟨ms, mo⟩
  rw [hui] at h1 h3
  rcases mo with _ | m'
  · have hfind : s.monitors.find? (fun x => x.id == m.id) = none := by
      rcases hf : s.monitors.find? (fun x => x.id == m.id) with _ | v
      · exact hf
      · rw [hf] at h1
        simp at h1
    constructor
    · simp only [UpsertMonitor, hui, GetState]
      rw [List.find?_append, hfind]
      simp [List.find?]
    · simp [UpsertMonitor, hui, hfind]
  · have hfind : ∃ old, s.monitors.find? (fun x => x.id == m.id) = some old
        ∧ m' = { m with createdAt := old.createdAt, updatedAt := now } := by
      rcases hf : s.monitors.find? (fun x => x.id == m.id) with _ | v
      · rw [hf] at h1
        simp at h1
      · rw [hf] at h1
        simp only [Option.map_some', Option.some.injEq] at h1
        exact ⟨v, hf, h1⟩
    obtain ⟨old, hold, hm'⟩ := hfind
    constructor
    · simp only [UpsertMonitor, hui, GetState]
      exact h3 m' rfl
    · simp [UpsertMonitor, hui, hm', hold]

/-- C7 witness: upserting a fresh monitor into the empty store at time 7; the
read-back equals the returned record. -/
theorem upsert_then_get_witness :
    (GetState (UpsertMonitor 7 { monitors := [], notifications := [] }
        monHTTPEx).1).monitors.find? (fun x => x.id == monHTTPEx.id)
      = some (UpsertMonitor 7 { monitors := [], notifications := [] }
          monHTTPEx).2 :=
  (upsert_then_get { monitors := [], notifications := [] } monHTTPEx 7
    (by decide)).1

/-- C7 counterexample: upserting monHTTPEx (createdAt 0) into an empty store at
time 7 stores createdAt 7, so the read-back monitor is not the input with only
updatedAt refreshed — createdAt is rewritten as well. -/
theorem upsert_then_get_cex :
    (GetState (UpsertMonitor 7 { monitors := [], notifications := [] }
        monHTTPEx).1).monitors.find? (fun x => x.id == monHTTPEx.id)
      ≠ some { monHTTPEx with updatedAt := 7 } := by
  decide

theorem tryRemediate_not_fired (p : RemediationPolicy) (now : Int)
    (s : RemState)
    (hact : p.action = RemediationStart ∨ p.action = RemediationRestart)
    (h : (tryRemediate p now s).2 = false) :
    (tryRemediate p now s).1 = s := by
  have hne : ¬(p.action = "" ∨ p.action = RemediationNone) := by
    rcases hact with h1 | h1 <;> rw [h1] <;> decide
  by_cases h2 : p.maxAttempts ≤ 0
  · simp only [tryRemediate, if_neg hne, if_pos h2]
  · by_cases h3 : (match s.remediateAt with
        | some next => decide (now < next)
        | none => false) = true
    · simp only [tryRemediate, if_neg hne, if_neg h2, if_pos h3]
    · by_cases h4 : p.maxAttempts ≤ s.attempts
      · simp only [tryRemediate, if_neg hne, if_neg h2, if_neg h3, if_pos h4]
      · simp only [tryRemediate, if_neg hne, if_neg h2, if_neg h3, if_neg h4,
          if_pos hact] at h
        exact Bool.noConfusion h

theorem tryRemediate_fired (p : RemediationPolicy) (now : Int) (s : RemState)
    (h : (tryRemediate p now s).2 = true) :
    (∀ v, s.remediateAt = some v → v ≤ now)
    ∧ s.attempts < p.maxAttempts
    ∧ (tryRemediate p now s).1
      = { attempts := s.attempts + 1,
          remediateAt := some (now + maxInt 5 p.cooldownSeconds) } := by
  by_cases h1 : p.action = "" ∨ p.action = RemediationNone
  · simp only [tryRemediate, if_pos h1] at h
    exact Bool.noConfusion h
  · by_cases h2 : p.maxAttempts ≤ 0
    · simp only [tryRemediate, if_neg h1, if_pos h2] at h
      exact Bool.noConfusion h
    · by_cases h3 : (match s.remediateAt with
          | some next => decide (now < next)
          | none => false) = true
      · simp only [tryRemediate, if_neg h1, if_neg h2, if_pos h3] at h
        exact Bool.noConfusion h
      · by_cases h4 : p.maxAttempts ≤ s.attempts
        · simp only [tryRemediate, if_neg h1, if_neg h2, if_neg h3,
            if_pos h4] at h
          exact Bool.noConfusion h
        · refine ⟨?_, by omega, ?_⟩
          · intro v hv
            rw [hv] at h3
            simp at h3
            omega
          · by_cases h5 : p.action = RemediationStart
                ∨ p.action = RemediationRestart
            · simp only [tryRemediate, if_neg h1, if_neg h2, if_neg h3,
                if_neg h4, if_pos h5]
            · simp only [tryRemediate, if_neg h1, if_neg h2, if_neg h3,
                if_neg h4, if_neg h5] at h
              exact Bool.noConfusion h

theorem remRun_check_window (p : RemediationPolicy)
    (hact : p.action = RemediationStart ∨ p.action = RemediationRestart)
    (tr : List (Int × RemEvent)) :
    ∀ s : RemState, (∀ e ∈ tr, e.2 = RemEvent.check) →
      (remRun p s tr).1.attempts
          = s.attempts + ((remRun p s tr).2.length : Int)
      ∧ (s.attempts ≤ p.maxAttempts →
          (remRun p s tr).1.attempts ≤ p.maxAttempts) := by
  induction tr with
  | nil =>
      intro s _
      simp [remRun]
  | cons e tr ih =>
      intro s hall
      have he : e.2 = RemEvent.check := hall e (by simp)
      have htr : ∀ x ∈ tr, x.2 = RemEvent.check := fun x hx =>
        hall x (List.mem_cons_of_mem _ hx)
      rcases hf : (tryRemediate p e.1 s).2 with _ | _
      · have hs := tryRemediate_not_fired p e.1 s hact hf
        have hrec := ih (tryRemediate p e.1 s).1 htr
        rw [hs] at hrec
        constructor
        · have : remRun p s (e :: tr)
              = ((remRun p s tr).1, (remRun p s tr).2) := by
            simp only [remRun, remStep, he]
            rw [hf, hs]
            simp
          rw [this]
          exact hrec.1
        · intro hle
          have : remRun p s (e :: tr)
              = ((remRun p s tr).1, (remRun p s tr).2) := by
            simp only [remRun, remStep, he]
            rw [hf, hs]
            simp
          rw [this]
          exact hrec.2 hle
      · obtain ⟨_, hlt, hs'⟩ := tryRemediate_fired p e.1 s hf
        have hrec := ih (tryRemediate p e.1 s).1 htr
        rw [hs'] at hrec
        have hrw : remRun p s (e :: tr)
            = ((remRun p (tryRemediate p e.1 s).1 tr).1,
                e.1 :: (remRun p (tryRemediate p e.1 s).1 tr).2) := by
          simp only [remRun, remStep, he]
          rw [hf]
          simp
        rw [hrw, hs']
        constructor
        · rw [hrec.1]
          simp only [List.length_cons]
          push_cast
          ring
        · intro _
          exact hrec.2 (show s.attempts + 1 ≤ p.maxAttempts by omega)

theorem remRun_spacing (p : RemediationPolicy)
    (hact : p.action = RemediationStart ∨ p.action = RemediationRestart)
    (tr : List (Int × RemEvent)) :
    ∀ s : RemState,
      List.Chain' (fun a b => a + maxInt 5 p.cooldownSeconds ≤ b)
        (remRun p s tr).2
      ∧ (∀ v, s.remediateAt = some v →
          ∀ t, (remRun p s tr).2.head? = some t → v ≤ t) := by
  induction tr with
  | nil =>
      intro s
      simp [remRun]
  | cons e tr ih =>
      intro s
      rcases he : e.2 with _ | _
      · -- reset step: attempts zeroed, remediateAt untouched, no action
        have hrw : remRun p s (e :: tr)
            = ((remRun p (resetAttempts s) tr).1,
                (remRun p (resetAttempts s) tr).2) := by
          simp [remRun, remStep, he]
        rw [hrw]
        refine ⟨(ih (resetAttempts s)).1, fun v hv t ht => ?_⟩
        exact (ih (resetAttempts s)).2 v hv t ht
      · rcases hf : (tryRemediate p e.1 s).2 with _ | _
        · have hs := tryRemediate_not_fired p e.1 s hact hf
          have hrw : remRun p s (e :: tr)
              = ((remRun p s tr).1, (remRun p s tr).2) := by
            simp only [remRun, remStep, he]
            rw [hf, hs]
            simp
          rw [hrw]
          exact ih s
        · obtain ⟨hgate, _, hs'⟩ := tryRemediate_fired p e.1 s hf
          have hrw : remRun p s (e :: tr)
              = ((remRun p (tryRemediate p e.1 s).1 tr).1,
                  e.1 :: (remRun p (tryRemediate p e.1 s).1 tr).2) := by
            simp only [remRun, remStep, he]
            rw [hf]
            simp
          rw [hrw]
          have hrec := ih (tryRemediate p e.1 s).1
          constructor
          · rw [List.chain'_cons']
            refine ⟨fun b hb => ?_, hrec.1⟩
            have := hrec.2 (e.1 + maxInt 5 p.cooldownSeconds)
              (by rw [hs']) b hb
            omega
          · intro v hv t ht
            simp only [List.head?_cons, Option.some.injEq] at ht
            subst ht
            exact hgate v hv

/-- C1: for a container monitor with remediation enabled (action start or
restart, maxAttempts > 0): starting from the reset state (attempts 0, as set
by the first up after a non-up), a window of failing-probe checks with no up
observation issues at most maxAttempts actions; over any event sequence,
consecutive action instants are at least maxInt 5 cooldownSeconds apart; and a
single tryRemediate call acts at time t only if t ≥ the pending remediateAt
(or it is unset), scheduling remediateAt to t + maxInt 5 cooldownSeconds. -/
theorem remediation_policy (p : RemediationPolicy) (r0 : Option Int)
    (win tr : List (Int × RemEvent)) (s : RemState) (t : Int)
    (hact : p.action = RemediationStart ∨ p.action = RemediationRestart)
    (hmax : 0 < p.maxAttempts)
    (hwin : ∀ e ∈ win, e.2 = RemEvent.check) :
    ((remRun p { attempts := 0, remediateAt := r0 } win).2.length : Int)
        ≤ p.maxAttempts
    ∧ List.Chain' (fun a b => a + maxInt 5 p.cooldownSeconds ≤ b)
        (remRun p { attempts := 0, remediateAt := r0 } tr).2
    ∧ ((tryRemediate p t s).2 = true →
        (∀ v, s.remediateAt = some v → v ≤ t)
        ∧ (tryRemediate p t s).1.remediateAt
          = some (t + maxInt 5 p.cooldownSeconds)) := by
  refine ⟨?_, ?_, fun hf => ?_⟩
  · have h := remRun_check_window p hact win
      { attempts := 0, remediateAt := r0 } hwin
    have h2 := h.2 (by simpa using le_of_lt hmax)
    rw [h.1] at h2
    simpa using h2
  · exact (remRun_spacing p hact tr { attempts := 0, remediateAt := r0 }).1
  · obtain ⟨hg, _, hs'⟩ := tryRemediate_fired p t s hf
    exact ⟨hg, by rw [hs']⟩

/-- C1 witness: the cooldown scenario fires at most maxAttempts = 2 actions. -/
theorem remediation_policy_witness :
    ((remRun remPolicyEx { attempts := 0, remediateAt := none }
        [(0, .check), (5, .check), (10, .check), (20, .check)]).2.length : Int)
      ≤ 2 :=
  (remediation_policy remPolicyEx none
    [(0, .check), (5, .check), (10, .check), (20, .check)] []
    { attempts := 0, remediateAt := none } 0
    (Or.inr rfl) (by decide) (by decide)).1

/-- C2: one completed probe emits exactly one status_changed notification when
the result status differs from the previous lastStatus (default unknown), and
none when it is unchanged; the emitted payload carries previous, current,
message, latencyMs, target (url or containerId) and the optional logs
attachment. -/
theorem status_changed_emission (now : Int) (m : Monitor) (o : ProbeOutcome)
    (st : EngineState) :
    ((checkOnce now m o st).2.isSome
      ↔ (dispatchCheck now m o).1.status ≠ getLastStatus st m.id)
    ∧ (∀ pl, (checkOnce now m o st).2 = some pl →
        pl.type = "status_changed"
        ∧ pl.monitorId = m.id
        ∧ dataGetStr pl.data "previous" = some (getLastStatus st m.id)
        ∧ dataGetStr pl.data "current" = some (dispatchCheck now m o).1.status
        ∧ dataGetStr pl.data "message" = some (dispatchCheck now m o).1.message
        ∧ dataGetInt pl.data "latencyMs"
            = some (dispatchCheck now m o).1.latencyMs
        ∧ dataGetStr pl.data "target" = some (monitorTarget m)
        ∧ pl.logs = (dispatchCheck now m o).2) := by
  constructor
  · simp only [checkOnce]
    split
    · rename_i hne
      simp only [Option.isSome_some, true_iff]
      exact fun hc => hne (hc.symm)
    · rename_i hne
      rw [not_not] at hne
      simp [hne]
  · intro pl hpl
    simp only [checkOnce] at hpl
    split at hpl
    · simp only [Option.some.injEq] at hpl
      subst hpl
      exact ⟨rfl, rfl, rfl, rfl, rfl, rfl, rfl, rfl⟩
    · exact Option.noConfusion hpl

/-- C2 witness: a first HTTP probe coming back up (previous status unknown)
emits a notification. -/
theorem status_changed_emission_witness :
    (checkOnce 3 monHTTPEx
        { http := .response 200 "200 OK" 12, container := .state "running",
          attach := none } NewEngine).2.isSome = true := by
  rw [(status_changed_emission 3 monHTTPEx
    { http := .response 200 "200 OK" 12, container := .state "running",
      attach := none } NewEngine).1]
  decide

/-- C10: a probe of a monitor whose type is neither http nor container
completes with status unknown, message "unknown monitor type", latency 0 and
no log attachment; it is recorded in lastStatus and history like any probe,
and when no previous status exists (first probe) no notification is emitted
because the default previous status is also unknown. -/
theorem unknown_type_probe (now : Int) (m : Monitor) (o : ProbeOutcome)
    (st : EngineState) (h1 : m.type ≠ MonitorTypeHTTP)
    (h2 : m.type ≠ MonitorTypeContainer) :
    (dispatchCheck now m o).1
      = { monitorId := m.id, status := StatusUnknown, checkedAt := now,
          latencyMs := 0, message := "unknown monitor type" }
    ∧ (dispatchCheck now m o).2 = none
    ∧ (checkOnce now m o st).1.lastStatus m.id = some StatusUnknown
    ∧ ((checkOnce now m o st).1.history m.id).head?
      = some { status := StatusUnknown, checkedAt := now, latencyMs := 0,
               message := "unknown monitor type" }
    ∧ (st.lastStatus m.id = none → (checkOnce now m o st).2 = none) := by
  have hd : dispatchCheck now m o
      = ({ monitorId := m.id, status := StatusUnknown, checkedAt := now,
           latencyMs := 0, message := "unknown monitor type" }, none) := by
    simp [dispatchCheck, h1, h2]
  have hres : ¬(StatusUnknown = StatusUp ∧ getLastStatus st m.id ≠ StatusUp) := by
    simp [StatusUnknown, StatusUp]
  refine ⟨by rw [hd], by rw [hd], ?_, ?_, ?_⟩
  · simp only [checkOnce, hd, if_neg hres]
    split <;> simp [engineAppendHistory, setLastStatus]
  · simp only [checkOnce, hd, if_neg hres]
    split <;> simp [engineAppendHistory, setLastStatus, appendHistory_eq_take]
  · intro habs
    have hprev : getLastStatus st m.id = StatusUnknown := by
      simp [getLastStatus, habs]
    simp only [checkOnce, hd, hprev, if_neg hres]
    simp

/-- C10 witness: a monitor of type "tcp" probed against a fresh engine. -/
theorem unknown_type_probe_witness :
    (checkOnce 5
        { monHTTPEx with type := "tcp" }
        { http := .response 200 "200 OK" 1, container := .state "running",
          attach := none } NewEngine).2 = none :=
  (unknown_type_probe 5 { monHTTPEx with type := "tcp" }
    { http := .response 200 "200 OK" 1, container := .state "running",
      attach := none } NewEngine (by decide) (by decide)).2.2.2.2 rfl

/-- C5: each element of notifyWebhookIds is resolved independently, first to
the store notification whose id matches, else the first whose name matches,
else the name-keyed legacy config webhook; when none matches, the element is
dropped silently — no delivery is attempted and no error is raised. -/
theorem webhook_resolution (notifs : List NotificationRecord)
    (webhooks : List NotificationWebhook) (e : String) (payload : Payload) :
    (∀ rest, emitWebhookBestEffort notifs (dispatcherMap webhooks) payload
        (e :: rest)
      = emitWebhookBestEffort notifs (dispatcherMap webhooks) payload [e]
        ++ emitWebhookBestEffort notifs (dispatcherMap webhooks) payload rest)
    ∧ (∀ n, notifs.find? (fun x => x.id == e) = some n →
      emitWebhookBestEffort notifs (dispatcherMap webhooks) payload [e]
        = [({ name := n.name, url := n.url, type := n.type }, payload)])
    ∧ (notifs.find? (fun x => x.id == e) = none →
      ∀ n, notifs.find? (fun x => x.name == e) = some n →
        emitWebhookBestEffort notifs (dispatcherMap webhooks) payload [e]
          = [({ name := n.name, url := n.url, type := n.type }, payload)])
    ∧ (notifs.find? (fun x => x.id == e) = none →
      notifs.find? (fun x => x.name == e) = none →
      emitWebhookBestEffort notifs (dispatcherMap webhooks) payload [e]
        = ((dispatcherMap webhooks e).map (fun w => (w, payload))).toList)
    ∧ (notifs.find? (fun x => x.id == e) = none →
      notifs.find? (fun x => x.name == e) = none →
      dispatcherMap webhooks e = none →
      emitWebhookBestEffort notifs (dispatcherMap webhooks) payload [e]
        = []) := by
  refine ⟨?_, ?_, ?_, ?_, ?_⟩
  · intro rest
    simp only [emitWebhookBestEffort]
    rcases hfid : notifs.find? (fun n => n.id == e) with _ | n
    · rcases hfn : notifs.find? (fun n => n.name == e) with _ | n
      · simp only [hfid, hfn, SendWebhook]
        rcases hleg : dispatcherMap webhooks e with _ | w <;> simp [hleg]
      · simp [hfid, hfn]
    · simp [hfid]
  · intro n hn
    simp [emitWebhookBestEffort, hn]
  · intro hid n hn
    simp [emitWebhookBestEffort, hid, hn]
  · intro hid hname
    simp only [emitWebhookBestEffort, hid, hname, SendWebhook]
    rcases dispatcherMap webhooks e with _ | w <;> simp
  · intro hid hname hleg
    simp [emitWebhookBestEffort, hid, hname, SendWebhook, hleg]

/-- C5 witness: `["ops"]` resolves by name to the store record. -/
theorem webhook_resolution_witness :
    emitWebhookBestEffort [notifOpsEx] (dispatcherMap []) payloadEx ["ops"]
      = [({ name := "ops", url := "http://hook", type := "discord" },
          payloadEx)] :=
  (webhook_resolution [notifOpsEx] [] "ops" payloadEx).2.2.1 (by decide)
    notifOpsEx (by decide)

/-- C8: every discord delivery has wire shape username "Uptime Chopper" with a
single embed carrying title, description, color and timestamp, and the embed
color is 0xdc3545 exactly when data.current equals "down", 0x5cdd8b
otherwise. -/
theorem discord_payload_shape (p : Payload) :
    (buildDiscordPayload p).username = "Uptime Chopper"
    ∧ (buildDiscordPayload p).embeds
      = [{ title := "监控报警: " ++ translateEventType p.type,
           description := formatMarkdown
             ("监控报警: " ++ translateEventType p.type) p,
           color := if dataGetStr p.data "current" = some "down"
             then 0xdc3545 else 0x5cdd8b,
           timestamp := formatRFC3339 p.atTime }]
    ∧ (∀ em ∈ (buildDiscordPayload p).embeds,
        (em.color = 0xdc3545 ↔ dataGetStr p.data "current" = some "down")
        ∧ (em.color ≠ 0xdc3545 → em.color = 0x5cdd8b)) := by
  have hc : (match dataGetStr p.data "current" with
      | some s => if s = "down" then (0xdc3545 : Int) else 0x5cdd8b
      | none => 0x5cdd8b)
      = if dataGetStr p.data "current" = some "down"
        then (0xdc3545 : Int) else 0x5cdd8b := by
    rcases h : dataGetStr p.data "current" with _ | s
    · simp
    · by_cases hs : s = "down" <;> simp [hs]
  refine ⟨rfl, ?_, ?_⟩
  · simp only [buildDiscordPayload, hc]
  · intro em hem
    simp only [buildDiscordPayload, hc, List.mem_singleton] at hem
    subst hem
    by_cases hdown : dataGetStr p.data "current" = some "down" <;>
      simp [hdown]

/-- C8 witness: a payload whose data.current is "down" gets the red embed. -/
theorem discord_payload_shape_witness :
    (buildDiscordPayload payloadEx).username = "Uptime Chopper"
    ∧ (buildDiscordPayload payloadEx).embeds.map DiscordEmbed.color
      = [(0xdc3545 : Int)] := by
  have h := discord_payload_shape payloadEx
  refine ⟨h.1, ?_⟩
  rw [h.2.1]
  simp [payloadEx, dataGetStr]

theorem string_append_empty (s : String) : s ++ "" = s := by
  rcases s with ⟨l⟩
  apply String.ext
  simp [String.data_append]

/-- C9: the markdown body rendered for dingtalk, wechat and discord is
formatMarkdown, and when a logs attachment is present the body is the
attachment-free body followed by a fenced code block holding the last 1000
characters of the content, prefixed with the truncation marker exactly when
the content was sliced; content of at most 1000 characters is included whole
with no marker. -/
theorem markdown_log_tail (p : Payload) (lg : DockerLogsAttachment)
    (hl : p.logs = some lg) (title : String) :
    formatMarkdown title p
      = formatMarkdown title { p with logs := none }
        ++ ("\n> **容器日志**:\n\n" ++ "```\n"
          ++ (if lg.content.length > 1000 then
                "...(已截断)...\n" ++ lg.content.drop (lg.content.length - 1000)
              else lg.content)
          ++ "\n```\n")
    ∧ (lg.content.length > 1000 →
        (lg.content.drop (lg.content.length - 1000)).length = 1000)
    ∧ (buildDingTalkPayload p).markdown.text
      = formatMarkdown ("监控报警: " ++ translateEventType p.type) p
    ∧ (buildWeChatPayload p).markdown.content
      = formatMarkdown ("监控报警: " ++ translateEventType p.type) p
    ∧ (∀ em ∈ (buildDiscordPayload p).embeds,
        em.description
          = formatMarkdown ("监控报警: " ++ translateEventType p.type) p) := by
  refine ⟨?_, ?_, rfl, rfl, ?_⟩
  · simp only [formatMarkdown, hl]
    rw [string_append_empty]
  · intro hlen
    have hd : (lg.content.drop (lg.content.length - 1000)).length
        = lg.content.data.length - (lg.content.length - 1000) := by
      show (lg.content.drop _).data.length = _
      rw [String.data_drop, List.length_drop]
    have hcl : lg.content.length = lg.content.data.length := rfl
    rw [hd]
    omega
  · intro em hem
    simp only [buildDiscordPayload, List.mem_singleton] at hem
    subst hem
    rfl

/-- C9 witness: the dingtalk body for a payload with logs is formatMarkdown. -/
theorem markdown_log_tail_witness :
    (buildDingTalkPayload payloadLogsEx).markdown.text
      = formatMarkdown ("监控报警: " ++ translateEventType payloadLogsEx.type)
          payloadLogsEx :=
  (markdown_log_tail payloadLogsEx lgEx rfl "t").2.2.1

end UptimeChopper

